import Mathlib

/-
Shallow embedding of the hole-punch-server repository.

Part 1 models the rendezvous room registry from
`gday-hole-punch/src/server/global_state.rs`: rooms map a 6-byte id to two
client slots (index 0 = joiner, index 1 = creator, following
`usize::from(is_creator)`), each slot holding a FullContact and an optional
pending oneshot sender.  Tokio oneshot senders are modelled by channel ids
plus an `alive` predicate saying whether the matching receiver still exists;
`send(..).unwrap()` on a dead receiver is a Rust panic, modelled as `none`.
-/

namespace Gday

/-- Opaque payload of a `std::net::SocketAddrV4`.  The rendezvous logic never
inspects the address, so a bare natural number is a faithful stand-in. -/
abbrev SocketAddrV4 := Nat

/-- Opaque payload of a `std::net::SocketAddrV6`. -/
abbrev SocketAddrV6 := Nat

/-- Mirror of `std::net::SocketAddr`. -/
inductive SocketAddr where
  | V4 (addr : SocketAddrV4)
  | V6 (addr : SocketAddrV6)
deriving DecidableEq

/-- Mirror of `Contact` in `src/lib.rs`: optional v6 and v4 socket addresses. -/
structure Contact where
  v6 : Option SocketAddrV6
  v4 : Option SocketAddrV4
deriving DecidableEq

/-- Mirror of `FullContact` in `src/lib.rs`.  The Rust field `private` is a
Lean keyword, hence the trailing underscore. -/
structure FullContact where
  private_ : Contact
  public : Contact
deriving DecidableEq

/-- Room identifier: the `[u8; 6]` room id of `global_state.rs`. -/
abbrev RoomId := List Nat

/-- Identifier of a tokio oneshot channel created by `set_client_done`. -/
abbrev ChanId := Nat

/-- Mirror of `Client` in `global_state.rs`: accumulated contact plus the
optional pending oneshot sender (`waiting`). -/
structure Client where
  contact : FullContact
  waiting : Option ChanId
deriving DecidableEq

/-- Mirror of the `[Client; 2]` room record; `c0` is index 0 (joiner) and
`c1` is index 1 (creator), per `usize::from(is_creator)`. -/
structure Room where
  c0 : Client
  c1 : Client
deriving DecidableEq

/-- Mirror of `ServerError`; only the variant used by the embedded code. -/
inductive ServerError where
  | NoSuchRoomExists
deriving DecidableEq

/-- One successful `oneshot::Sender::send`: which channel received which
`(Contact, FullContact)` pair. -/
structure Delivery where
  chan : ChanId
  ownPublic : Contact
  peerContact : FullContact
deriving DecidableEq

/-- The room map guarded by the mutex in `State`. -/
abbrev Rooms := List (RoomId × Room)

/-- Lookup in the room map (`HashMap::get`). -/
def lookupRoom : Rooms → RoomId → Option Room
  | [], _ => none
  | (k, v) :: rest, key => if k = key then some v else lookupRoom rest key

/-- Insert-or-replace in the room map (`HashMap::insert` / `get_mut` then write). -/
def setKey : Rooms → RoomId → Room → Rooms
  | [], k, v => [(k, v)]
  | (k', v') :: rest, k, v =>
    if k' = k then (k, v) :: rest else (k', v') :: setKey rest k v

/-- Removal from the room map (`HashMap::remove`). -/
def removeKey : Rooms → RoomId → Rooms
  | [], _ => []
  | (k', v) :: rest, k =>
    if k' = k then removeKey rest k else (k', v) :: removeKey rest k

/-- Indexing `room[usize::from(is_creator)]`. -/
def Room.slot (r : Room) : Bool → Client
  | true => r.c1
  | false => r.c0

/-- Writing through `room[usize::from(is_creator)]`. -/
def Room.setSlot (r : Room) : Bool → Client → Room
  | true, c => { r with c1 := c }
  | false, c => { r with c0 := c }

/-- Mirror of `State::update_client`: merges one observed address into the
addressed client's FullContact.  It performs no oneshot sends, so its
delivery list is always empty. -/
def update_client (rooms : Rooms) (room_id : RoomId) (is_creator : Bool)
    (endpoint : SocketAddr) (public : Bool) :
    Rooms × Except ServerError Unit × List Delivery :=
  match lookupRoom rooms room_id with
  | none => (rooms, Except.error ServerError.NoSuchRoomExists, [])
  | some room =>
    let client := room.slot is_creator
    let contact := client.contact
    let c := if public then contact.public else contact.private_
    let c' := match endpoint with
      | SocketAddr.V6 a => { c with v6 := some a }
      | SocketAddr.V4 a => { c with v4 := some a }
    let contact' :=
      if public then { contact with public := c' }
      else { contact with private_ := c' }
    let room' := room.setSlot is_creator { client with contact := contact' }
    (setKey rooms room_id room', Except.ok (), [])

/-- Mirror of `State::set_client_done`.  `fresh` is the id of the oneshot
channel created by `oneshot::channel()`; `alive c` says whether channel `c`'s
receiver still exists.  The freshly created receiver is held by this very
call, so the send on `fresh` always succeeds; the send on the peer's stored
channel goes through `.unwrap()` and panics (modelled by `none`) when the
peer's receiver has been dropped. -/
def set_client_done (alive : ChanId → Bool) (rooms : Rooms) (room_id : RoomId)
    (is_creator : Bool) (fresh : ChanId) :
    Option (Rooms × Except ServerError ChanId × List Delivery) :=
  match lookupRoom rooms room_id with
  | none => some (rooms, Except.error ServerError.NoSuchRoomExists, [])
  | some room =>
    let client := room.slot is_creator
    let room1 := room.setSlot is_creator { client with waiting := some fresh }
    let peer := room1.slot (!is_creator)
    match peer.waiting with
    | none => some (setKey rooms room_id room1, Except.ok fresh, [])
    | some pch =>
      let client_info := (room1.slot is_creator).contact
      let peer_info := peer.contact
      let cl2 := room1.slot is_creator
      let room2 := room1.setSlot is_creator { cl2 with waiting := none }
      let pr2 := room2.slot (!is_creator)
      let room3 := room2.setSlot (!is_creator) { pr2 with waiting := none }
      if alive pch then
        some (removeKey (setKey rooms room_id room3) room_id, Except.ok fresh,
          [⟨fresh, client_info.public, peer_info⟩,
           ⟨pch, peer_info.public, client_info⟩])
      else
        none

/-- Concrete room used by the C1 witness: joiner slot already waiting on
channel 3, distinct addresses in every Contact field. -/
def roomC1 : Room :=
  ⟨⟨⟨⟨some 10, some 11⟩, ⟨some 12, some 13⟩⟩, some 3⟩,
   ⟨⟨⟨none, some 20⟩, ⟨none, some 21⟩⟩, none⟩⟩

/-- Concrete registry used by the C1 witness. -/
def roomsC1 : Rooms := [([1, 2, 3, 4, 5, 6], roomC1)]

/-- Concrete room used by the C8 witness: nobody waiting yet. -/
def roomC8 : Room :=
  ⟨⟨⟨⟨some 30, none⟩, ⟨some 31, none⟩⟩, none⟩,
   ⟨⟨⟨none, some 40⟩, ⟨none, some 41⟩⟩, none⟩⟩

/-- Concrete registry used by the C8 witness. -/
def roomsC8 : Rooms := [([9, 9, 9, 9, 9, 9], roomC8)]

/-- Concrete two-room registry used by the C9 witness. -/
def roomsC9 : Rooms :=
  [([1, 1, 1, 1, 1, 1], roomC1), ([9, 9, 9, 9, 9, 9], roomC8)]

/-
Part 2 models the client-side encrypted connection from
`src/client/encrypted_connection.rs`.  Bytes are naturals below 256.  The
AEAD engine (`EncryptorLE31`) lives in an external crate; it is abstracted
as a function from the stream counter and a plaintext chunk to the sealed
chunk, and the `Writer` state records the counter, the pending unsent
ciphertext (`VecDeque`), and the session nonce the encryptor was
initialized with.  The underlying sink is a script of poll results:
each `poll_write` on it either reports Pending or accepts up to n bytes.
-/

/-- Big-endian bytes of `x as u32` (`u32::to_be_bytes`). -/
def be32 (n : Nat) : List Nat :=
  [n / 16777216 % 256, n / 65536 % 256, n / 256 % 256, n % 256]

/-- Mirror of `u32::from_be_bytes` on four bytes. -/
def u32_from_be (b0 b1 b2 b3 : Nat) : Nat :=
  ((b0 * 256 + b1) * 256 + b2) * 256 + b3

/-- One poll result of the underlying `AsyncWrite` sink: it would block, or
it accepts up to `n` bytes of the offered slice. -/
inductive SinkEv where
  | pending
  | accept (n : Nat)
deriving DecidableEq

/-- Abstraction of `EncryptorLE31::encrypt_next_in_place`: given the stream
counter and the plaintext, the sealed AEAD output. -/
abbrev EncFn := Nat → List Nat → List Nat

/-- Mirror of `Writer`'s persistent state: the encryptor's chunk counter,
the pending `ciphertext: VecDeque<u8>`, and the session nonce chosen at
construction. -/
structure Writer where
  count : Nat
  ciphertext : List Nat
  nonce : List Nat
deriving DecidableEq

/-- Mirror of `Writer::new`: draws a random session nonce (passed in here),
initializes the encryptor with it, and starts with an empty pending
ciphertext queue — nothing is arranged to transmit the nonce. -/
def Writer.new (nonce : List Nat) : Writer := ⟨0, [], nonce⟩

/-- Result of `Writer::flush_local_buffer`: Pending or Ready(Ok(())). -/
inductive FlushRes where
  | pendingF (w : Writer)
  | readyF (w : Writer)
deriving DecidableEq

/-- Mirror of `Writer::flush_local_buffer`: if pending ciphertext exists,
offer it all to the sink once, drop the accepted front, and return Ready
only if the queue emptied (a partial accept yields Pending).  Returns the
updated writer, the unconsumed sink script, and the bytes the sink took. -/
def flush_local_buffer (w : Writer) (script : List SinkEv) :
    FlushRes × List SinkEv × List Nat :=
  if w.ciphertext = [] then (FlushRes.readyF w, script, [])
  else
    match script with
    | [] => (FlushRes.pendingF w, [], [])
    | SinkEv.pending :: rest => (FlushRes.pendingF w, rest, [])
    | SinkEv.accept n :: rest =>
      let k := min n w.ciphertext.length
      let sunk := w.ciphertext.take k
      let w' : Writer := { w with ciphertext := w.ciphertext.drop k }
      if w'.ciphertext = [] then (FlushRes.readyF w', rest, sunk)
      else (FlushRes.pendingF w', rest, sunk)

/-- Outcome of `Writer::poll_write`.  The source has no completing path: it
either suspends at one of the two `ready!` points or reaches the trailing
`todo!()` (a Rust panic) after queueing the unwritten suffix. -/
inductive WOutcome where
  | pendingW (w : Writer)
  | panicW (w : Writer)
deriving DecidableEq

/-- Mirror of `Writer::poll_write`: flush the pending queue first; then seal
`buf` with `encrypt_next_in_place` (advancing the counter), splice the
4-byte big-endian header `(sealed length + 4)` in front, offer the framed
chunk to the sink once, queue the unwritten suffix — and then hit
`todo!()`.  Returns the outcome, the rest of the sink script, and every
byte the underlying sink accepted during the call. -/
def Writer.poll_write (encFn : EncFn) (w : Writer) (script : List SinkEv)
    (buf : List Nat) : WOutcome × List SinkEv × List Nat :=
  match flush_local_buffer w script with
  | (FlushRes.pendingF w', rest, sunk) => (WOutcome.pendingW w', rest, sunk)
  | (FlushRes.readyF w', rest, sunk) =>
    let es := encFn w'.count buf
    let w2 : Writer := { w' with count := w'.count + 1 }
    let framed := be32 (es.length + 4) ++ es
    match rest with
    | [] => (WOutcome.pendingW w2, [], sunk)
    | SinkEv.pending :: r2 => (WOutcome.pendingW w2, r2, sunk)
    | SinkEv.accept n :: r2 =>
      let k := min n framed.length
      let w3 : Writer := { w2 with ciphertext := w2.ciphertext ++ framed.drop k }
      (WOutcome.panicW w3, r2, sunk ++ framed.take k)

/-- Model AEAD used to evaluate the writer at concrete inputs: the sealed
chunk is the plaintext followed by a 16-byte tag, so its length is
`plaintext length + 16` as in ChaCha20-Poly1305. -/
def encFnModel : EncFn := fun _ p => p ++ List.replicate 16 0


/-- Mirror of the client `Reader` struct fields that `Reader::new` fills in
`encrypted_connection.rs` (the wrapped transport is left outside the state). -/
structure CReader where
  key : List Nat
  nonce : List Nat
  cipher_buf : List Nat
  decryption_space : List Nat
  plaintext : List Nat
deriving DecidableEq

/-- Rust slice indexing `l[a..b]`: panics (modelled as `none`) unless
`a ≤ b ≤ l.len()`. -/
def sliceRange (l : List Nat) (a b : Nat) : Option (List Nat) :=
  if a ≤ b ∧ b ≤ l.length then some ((l.drop a).take (b - a)) else none

/-- Mirror of `Reader::new` in `encrypted_connection.rs`: it takes
`shared_secret[0..12].try_into()` as the 32-byte ChaCha20-Poly1305 key and
`shared_secret[12..44].try_into()` as the 8-byte stream nonce, unwrapping
both; a failed conversion or an out-of-bounds slice is a panic, modelled as
`none`. -/
def CReader.new (shared_secret : List Nat) : Option CReader := do
  let keySlice ← sliceRange shared_secret 0 12
  let key ← if keySlice.length = 32 then some keySlice else none
  let nonceSlice ← sliceRange shared_secret 12 44
  let nonce ← if nonceSlice.length = 8 then some nonceSlice else none
  some ⟨key, nonce, [], [], []⟩

/-
Part 3 models the server-side `EncryptedReader` of
`gday-encryption/src/reader.rs`.  Its buffer type `HelperBuf` and the
constant `MAX_CHUNK_SIZE` are imported from crate modules that are not part
of the sources, so they are modelled from the spec; everything else follows
`reader.rs` line by line.  The underlying transport is a script of poll
results (Pending, or Ready with the delivered bytes — an empty delivery is
end of stream), and the stream decryptor is abstracted as a function from
the chunk counter and a sealed chunk to the plaintext (`none` = tag
failure).
-/

/-- Modelled from the spec: `HelperBuf` (the reusable ChunkBuffer of spec
section 3), which is defined outside the given sources.  A fixed capacity, a
filled byte region, and a read cursor; the unread data is `buf` past
`cursor`; when the cursor reaches the filled length the storage is
reclaimed, and `wrap` repacks the unread data to the front. -/
structure HelperBuf where
  cap : Nat
  buf : List Nat
  cursor : Nat
deriving DecidableEq

/-- Modelled from the spec: the unread region of a `HelperBuf`. -/
def HelperBuf.data (b : HelperBuf) : List Nat := b.buf.drop b.cursor

/-- Modelled from the spec: free capacity at the end of the storage. -/
def HelperBuf.spare_capacity_len (b : HelperBuf) : Nat := b.cap - b.buf.length

/-- Modelled from the spec: consume `n` bytes from the front of the unread
region, reclaiming the storage when everything filled has been read. -/
def HelperBuf.advance_cursor (b : HelperBuf) (n : Nat) : HelperBuf :=
  if b.buf.length ≤ b.cursor + n then ⟨b.cap, [], 0⟩
  else ⟨b.cap, b.buf, b.cursor + n⟩

/-- Modelled from the spec: repack the unread region to the front. -/
def HelperBuf.wrap (b : HelperBuf) : HelperBuf := ⟨b.cap, b.data, 0⟩

/-- Modelled from the spec: a fresh empty buffer of the given capacity. -/
def HelperBuf.with_capacity (n : Nat) : HelperBuf := ⟨n, [], 0⟩

/-- Mirror of `peek_cipher_chunk` in `reader.rs`: read a 4-byte big-endian
length from the unread data and return the following `len` bytes if they
have fully arrived. -/
def peek_cipher_chunk (b : HelperBuf) : Option (List Nat) :=
  match b.data with
  | b0 :: b1 :: b2 :: b3 :: _ =>
    let len := u32_from_be b0 b1 b2 b3
    if 4 + len ≤ b.data.length then some ((b.data.drop 4).take len) else none
  | _ => none

/-- Abstraction of `DecryptorLE31::decrypt_next_in_place`: chunk counter and
sealed chunk to plaintext, `none` on authentication failure. -/
abbrev DecFn := Nat → List Nat → Option (List Nat)

/-- Mirror of the `EncryptedReader` state: the decryptor's chunk counter and
the two `HelperBuf`s (cleartext sized `MAX_CHUNK_SIZE`, ciphertext sized
`2 * MAX_CHUNK_SIZE`). -/
structure EncryptedReader where
  counter : Nat
  cleartext : HelperBuf
  ciphertext : HelperBuf
deriving DecidableEq

/-- The while-loop of `decrypt_all_full_chunks`, with fuel bounding the
iteration count (each iteration consumes at least 4 unread ciphertext bytes,
so `data length + 1` rounds never run out). -/
def decryptChunksLoop (decFn : DecFn) : Nat → EncryptedReader → Option EncryptedReader
  | 0, st => some st
  | fuel + 1, st =>
    match peek_cipher_chunk st.ciphertext with
    | none => some st
    | some msg =>
      if st.cleartext.spare_capacity_len < msg.length then some st
      else
        match decFn st.counter msg with
        | none => none
        | some pt =>
          decryptChunksLoop decFn fuel
            ⟨st.counter + 1,
             ⟨st.cleartext.cap, st.cleartext.buf ++ pt, st.cleartext.cursor⟩,
             st.ciphertext.advance_cursor (msg.length + 4)⟩

/-- Mirror of `EncryptedReader::decrypt_all_full_chunks`: decrypt every
complete chunk that fits the cleartext buffer, then repack the ciphertext
buffer when no chunk is parsable and no spare capacity remains. -/
def EncryptedReader.decrypt_all_full_chunks (decFn : DecFn)
    (st : EncryptedReader) : Option EncryptedReader := do
  let st ← decryptChunksLoop decFn (st.ciphertext.data.length + 1) st
  if peek_cipher_chunk st.ciphertext = none ∧ st.ciphertext.spare_capacity_len = 0 then
    some { st with ciphertext := st.ciphertext.wrap }
  else
    some st

/-- One poll result of the underlying `AsyncRead` source: it would block, or
it delivers the given bytes (at most the spare capacity is taken; an empty
delivery is end of stream). -/
inductive REvent where
  | pending
  | chunk (bs : List Nat)
deriving DecidableEq

/-- Result of one `inner_read`: underlying Pending, decryption error, or
Ready with the updated state. -/
inductive IRes where
  | pendingI
  | errI
  | okI (st : EncryptedReader)
deriving DecidableEq

/-- Mirror of `EncryptedReader::inner_read`: one poll of the underlying
source into the ciphertext buffer's spare capacity, then
`decrypt_all_full_chunks`. -/
def EncryptedReader.inner_read (decFn : DecFn) (st : EncryptedReader)
    (ev : REvent) : IRes :=
  match ev with
  | REvent.pending => IRes.pendingI
  | REvent.chunk bs =>
    let bs := bs.take st.ciphertext.spare_capacity_len
    let st1 : EncryptedReader :=
      { st with ciphertext := ⟨st.ciphertext.cap, st.ciphertext.buf ++ bs, st.ciphertext.cursor⟩ }
    match st1.decrypt_all_full_chunks decFn with
    | none => IRes.errI
    | some st' => IRes.okI st'

/-- Result of `read_if_necessary`: Pending, error, or Ready with the EOF
flag, final state, and unconsumed source script. -/
inductive RifRes where
  | pendingR (st : EncryptedReader) (rest : List REvent)
  | errR
  | readyR (eof : Bool) (st : EncryptedReader) (rest : List REvent)
deriving DecidableEq

/-- The while-loop of `read_if_necessary`: while the byte goal exceeds the
available cleartext and the ciphertext buffer has spare capacity, poll the
underlying source once; declare EOF when a completed poll leaves both
buffers empty; suspend on Pending only if no cleartext is available. -/
def readLoop (decFn : DecFn) (bytes_amount : Nat) :
    EncryptedReader → List REvent → RifRes
  | st, script =>
    if st.cleartext.data.length < bytes_amount ∧ st.ciphertext.spare_capacity_len ≠ 0 then
      match script with
      | [] =>
        if st.cleartext.data = [] then RifRes.pendingR st []
        else RifRes.readyR false st []
      | ev :: rest =>
        match st.inner_read decFn ev with
        | IRes.errI => RifRes.errR
        | IRes.pendingI =>
          if st.cleartext.data = [] then RifRes.pendingR st rest
          else RifRes.readyR false st rest
        | IRes.okI st' =>
          if st'.ciphertext.data = [] ∧ st'.cleartext.data = [] then
            RifRes.readyR true st' rest
          else readLoop decFn bytes_amount st' rest
    else
      RifRes.readyR false st script

/-- Mirror of `EncryptedReader::read_if_necessary`: the byte goal is the
cleartext data plus its spare capacity, clamped by `max_bytes`; decrypt
whatever is already buffered, then run the read loop. -/
def EncryptedReader.read_if_necessary (decFn : DecFn) (st : EncryptedReader)
    (script : List REvent) (max_bytes : Option Nat) : RifRes :=
  let ba := st.cleartext.data.length + st.cleartext.spare_capacity_len
  let ba := match max_bytes with
    | some m => min ba m
    | none => ba
  match st.decrypt_all_full_chunks decFn with
  | none => RifRes.errR
  | some st' => readLoop decFn ba st' script

/-- Completion kind of a `poll_read` call. -/
inductive PKind where
  | pendingP
  | errP
  | readyP
deriving DecidableEq

/-- Observable result of `poll_read`: completion kind, the bytes placed in
the caller's buffer, the final reader state, and the unconsumed script. -/
structure PRes where
  kind : PKind
  out : List Nat
  st : EncryptedReader
  rest : List REvent
deriving DecidableEq

/-- Mirror of `EncryptedReader::poll_read` for a caller buffer with
`remaining` free bytes: run `read_if_necessary`; on EOF complete with no
bytes; otherwise copy from the cleartext buffer and advance its cursor. -/
def EncryptedReader.poll_read (decFn : DecFn) (st : EncryptedReader)
    (script : List REvent) (remaining : Nat) : PRes :=
  match st.read_if_necessary decFn script (some remaining) with
  | RifRes.pendingR st' rest => ⟨PKind.pendingP, [], st', rest⟩
  | RifRes.errR => ⟨PKind.errP, [], st, []⟩
  | RifRes.readyR true st' rest => ⟨PKind.readyP, [], st', rest⟩
  | RifRes.readyR false st' rest =>
    let chunk := st'.cleartext.data
    let n := min remaining chunk.length
    ⟨PKind.readyP, chunk.take n,
     { st' with cleartext := st'.cleartext.advance_cursor n }, rest⟩

/-- Fresh `EncryptedReader` with `MAX_CHUNK_SIZE` modelled as 8 bytes
(cleartext capacity 8, ciphertext capacity 16). -/
def erInit : EncryptedReader :=
  ⟨0, HelperBuf.with_capacity 8, HelperBuf.with_capacity 16⟩

/-- Source script for the C7 counterexample: one completed read delivering
16 bytes — a length header declaring a 10-byte chunk (larger than the
8-byte cleartext buffer), the 10 chunk bytes, and 2 bytes of the next
header.  The source never reports end of stream. -/
def scriptC7 : List REvent :=
  [REvent.chunk ([0, 0, 0, 10] ++ List.replicate 12 7)]

theorem lookup_removeKey_self (l : Rooms) (k : RoomId) :
    lookupRoom (removeKey l k) k = none := by
  induction l with
  | nil => rfl
  | cons hd tl ih =>
    obtain ⟨k', v⟩ := hd
    by_cases h : k' = k
    · simpa [removeKey, h] using ih
    · simp [removeKey, lookupRoom, h, ih]

theorem lookup_setKey_self (l : Rooms) (k : RoomId) (v : Room) :
    lookupRoom (setKey l k v) k = some v := by
  induction l with
  | nil => simp [setKey, lookupRoom]
  | cons hd tl ih =>
    obtain ⟨k', v'⟩ := hd
    by_cases h : k' = k
    · simp [setKey, h, lookupRoom]
    · simp [setKey, h, lookupRoom, ih]

theorem lookup_setKey_other (l : Rooms) (k k' : RoomId) (v : Room) (h : k' ≠ k) :
    lookupRoom (setKey l k v) k' = lookupRoom l k' := by
  induction l with
  | nil => simp [setKey, lookupRoom, Ne.symm h]
  | cons hd tl ih =>
    obtain ⟨k0, v0⟩ := hd
    by_cases hk : k0 = k
    · subst hk
      simp [setKey, lookupRoom, Ne.symm h]
    · simp [setKey, hk, lookupRoom, ih]

/-- C1: when `set_client_done` is called on a live room whose peer slot
already holds a pending handle (whichever of the two clients calls second),
it delivers exactly one pair to each side — the caller's channel gets
(caller's own public Contact, peer's FullContact) and the peer's stored
channel gets (peer's own public Contact, caller's FullContact), which for
the creator is (creator's public, joiner's full) and for the joiner is
(joiner's public, creator's full) — and removes the room from the registry,
so every later `set_client_done` or `update_client` on that room id returns
`NoSuchRoomExists` and delivers nothing. -/
theorem set_client_done_matches (alive : ChanId → Bool) (rooms : Rooms)
    (rid : RoomId) (isc : Bool) (fresh pch : ChanId) (room : Room)
    (hlook : lookupRoom rooms rid = some room)
    (hpeer : (room.slot (!isc)).waiting = some pch)
    (halive : alive pch = true) :
    ∃ rooms',
      set_client_done alive rooms rid isc fresh =
        some (rooms', Except.ok fresh,
          [⟨fresh, (room.slot isc).contact.public, (room.slot (!isc)).contact⟩,
           ⟨pch, (room.slot (!isc)).contact.public, (room.slot isc).contact⟩]) ∧
      lookupRoom rooms' rid = none ∧
      (∀ (alive' : ChanId → Bool) (isc' : Bool) (fresh' : ChanId),
        set_client_done alive' rooms' rid isc' fresh' =
          some (rooms', Except.error ServerError.NoSuchRoomExists, [])) ∧
      (∀ (isc' : Bool) (ep : SocketAddr) (pub : Bool),
        update_client rooms' rid isc' ep pub =
          (rooms', Except.error ServerError.NoSuchRoomExists, [])) := by
  refine ⟨removeKey
      (setKey rooms rid ⟨⟨room.c0.contact, none⟩, ⟨room.c1.contact, none⟩⟩) rid,
    ?_, lookup_removeKey_self _ _, ?_, ?_⟩
  · cases isc with
    | false =>
      simp only [Bool.not_false, Room.slot] at hpeer
      simp [set_client_done, hlook, Room.slot, Room.setSlot, hpeer, halive]
    | true =>
      simp only [Bool.not_true, Room.slot] at hpeer
      simp [set_client_done, hlook, Room.slot, Room.setSlot, hpeer, halive]
  · intro alive' isc' fresh'
    simp [set_client_done, lookup_removeKey_self]
  · intro isc' ep pub
    simp [update_client, lookup_removeKey_self]

/-- Witness for C1 at a concrete registry: room `[1,2,3,4,5,6]` whose joiner
slot is already waiting on channel 3; the creator calls with fresh channel 7. -/
theorem set_client_done_matches_witness :
    lookupRoom roomsC1 [1, 2, 3, 4, 5, 6] = some roomC1 ∧
    (roomC1.slot (!true)).waiting = some 3 ∧
    ∃ rooms',
      set_client_done (fun _ => true) roomsC1 [1, 2, 3, 4, 5, 6] true 7 =
        some (rooms', Except.ok 7,
          [⟨7, (roomC1.slot true).contact.public, (roomC1.slot (!true)).contact⟩,
           ⟨3, (roomC1.slot (!true)).contact.public, (roomC1.slot true).contact⟩]) ∧
      lookupRoom rooms' [1, 2, 3, 4, 5, 6] = none ∧
      (∀ (alive' : ChanId → Bool) (isc' : Bool) (fresh' : ChanId),
        set_client_done alive' rooms' [1, 2, 3, 4, 5, 6] isc' fresh' =
          some (rooms', Except.error ServerError.NoSuchRoomExists, [])) ∧
      (∀ (isc' : Bool) (ep : SocketAddr) (pub : Bool),
        update_client rooms' [1, 2, 3, 4, 5, 6] isc' ep pub =
          (rooms', Except.error ServerError.NoSuchRoomExists, [])) :=
  ⟨by decide, by decide,
   set_client_done_matches (fun _ => true) roomsC1 [1, 2, 3, 4, 5, 6] true 7 3 roomC1
     (by decide) (by decide) rfl⟩

/-- C6 (refuted, code bug): if the first client's pending receiver has been
dropped (that client disconnected before the match), the peer's later
`set_client_done` does not return a typed result: the
`peer.waiting.take().unwrap().send(..).unwrap()` in `global_state.rs` panics
because tokio's oneshot `send` fails when the receiver is gone, poisoning
the rooms mutex.  The panic is modelled by the `none` result. -/
theorem set_client_done_panics_on_dropped_receiver :
    set_client_done (fun _ => false)
      [([1, 2, 3, 4, 5, 6],
        ⟨⟨⟨⟨none, none⟩, ⟨none, none⟩⟩, some 3⟩,
         ⟨⟨⟨none, none⟩, ⟨none, none⟩⟩, none⟩⟩)]
      [1, 2, 3, 4, 5, 6] true 7 = none := rfl

/-- C8: calling `set_client_done` twice for the same slot before a match
occurs replaces the earlier pending handle: both calls return ok with no
delivery, the room afterwards stores the newest channel for that slot, and
the match triggered by the peer's later call delivers only to the two most
recent handles — the abandoned first channel `f1` receives nothing. -/
theorem set_client_done_replaces (alive : ChanId → Bool) (rooms : Rooms)
    (rid : RoomId) (isc : Bool) (f1 f2 f3 : ChanId) (room : Room)
    (hlook : lookupRoom rooms rid = some room)
    (hpeer : (room.slot (!isc)).waiting = none)
    (halive : alive f2 = true)
    (h21 : f2 ≠ f1) (h31 : f3 ≠ f1) :
    ∃ rooms1 rooms2,
      set_client_done alive rooms rid isc f1 = some (rooms1, Except.ok f1, []) ∧
      set_client_done alive rooms1 rid isc f2 = some (rooms2, Except.ok f2, []) ∧
      (∃ room2, lookupRoom rooms2 rid = some room2 ∧
        (room2.slot isc).waiting = some f2) ∧
      (∃ rooms3,
        set_client_done alive rooms2 rid (!isc) f3 = some (rooms3, Except.ok f3,
          [⟨f3, (room.slot (!isc)).contact.public, (room.slot isc).contact⟩,
           ⟨f2, (room.slot isc).contact.public, (room.slot (!isc)).contact⟩]) ∧
        ∀ d ∈ [(⟨f3, (room.slot (!isc)).contact.public, (room.slot isc).contact⟩ : Delivery),
               (⟨f2, (room.slot isc).contact.public, (room.slot (!isc)).contact⟩ : Delivery)],
          d.chan ≠ f1) := by
  cases isc with
  | true =>
    simp only [Bool.not_true, Room.slot] at hpeer
    refine ⟨setKey rooms rid ⟨room.c0, ⟨room.c1.contact, some f1⟩⟩,
            setKey (setKey rooms rid ⟨room.c0, ⟨room.c1.contact, some f1⟩⟩) rid
              ⟨room.c0, ⟨room.c1.contact, some f2⟩⟩, ?_, ?_, ?_, ?_⟩
    · simp [set_client_done, hlook, Room.slot, Room.setSlot, hpeer]
    · simp [set_client_done, lookup_setKey_self, Room.slot, Room.setSlot, hpeer]
    · exact ⟨_, lookup_setKey_self _ _ _, rfl⟩
    · refine ⟨removeKey (setKey (setKey (setKey rooms rid
          ⟨room.c0, ⟨room.c1.contact, some f1⟩⟩) rid
          ⟨room.c0, ⟨room.c1.contact, some f2⟩⟩) rid
          ⟨⟨room.c0.contact, none⟩, ⟨room.c1.contact, none⟩⟩) rid, ?_, ?_⟩
      · simp [set_client_done, lookup_setKey_self, Room.slot, Room.setSlot, halive]
      · simp [h21, h31]
  | false =>
    simp only [Bool.not_false, Room.slot] at hpeer
    refine ⟨setKey rooms rid ⟨⟨room.c0.contact, some f1⟩, room.c1⟩,
            setKey (setKey rooms rid ⟨⟨room.c0.contact, some f1⟩, room.c1⟩) rid
              ⟨⟨room.c0.contact, some f2⟩, room.c1⟩, ?_, ?_, ?_, ?_⟩
    · simp [set_client_done, hlook, Room.slot, Room.setSlot, hpeer]
    · simp [set_client_done, lookup_setKey_self, Room.slot, Room.setSlot, hpeer]
    · exact ⟨_, lookup_setKey_self _ _ _, rfl⟩
    · refine ⟨removeKey (setKey (setKey (setKey rooms rid
          ⟨⟨room.c0.contact, some f1⟩, room.c1⟩) rid
          ⟨⟨room.c0.contact, some f2⟩, room.c1⟩) rid
          ⟨⟨room.c0.contact, none⟩, ⟨room.c1.contact, none⟩⟩) rid, ?_, ?_⟩
      · simp [set_client_done, lookup_setKey_self, Room.slot, Room.setSlot, halive]
      · simp [h21, h31]

/-- Witness for C8: the creator calls `set_client_done` with channels 1 and
then 2; the joiner's later call with channel 5 matches against channel 2. -/
theorem set_client_done_replaces_witness :
    lookupRoom roomsC8 [9, 9, 9, 9, 9, 9] = some roomC8 ∧
    (roomC8.slot (!true)).waiting = none ∧
    ∃ rooms1 rooms2,
      set_client_done (fun _ => true) roomsC8 [9, 9, 9, 9, 9, 9] true 1 =
        some (rooms1, Except.ok 1, []) ∧
      set_client_done (fun _ => true) rooms1 [9, 9, 9, 9, 9, 9] true 2 =
        some (rooms2, Except.ok 2, []) ∧
      (∃ room2, lookupRoom rooms2 [9, 9, 9, 9, 9, 9] = some room2 ∧
        (room2.slot true).waiting = some 2) ∧
      (∃ rooms3,
        set_client_done (fun _ => true) rooms2 [9, 9, 9, 9, 9, 9] (!true) 5 =
          some (rooms3, Except.ok 5,
            [⟨5, (roomC8.slot (!true)).contact.public, (roomC8.slot true).contact⟩,
             ⟨2, (roomC8.slot true).contact.public, (roomC8.slot (!true)).contact⟩]) ∧
        ∀ d ∈ [(⟨5, (roomC8.slot (!true)).contact.public,
                  (roomC8.slot true).contact⟩ : Delivery),
               (⟨2, (roomC8.slot true).contact.public,
                  (roomC8.slot (!true)).contact⟩ : Delivery)],
          d.chan ≠ 1) :=
  ⟨by decide, by decide,
   set_client_done_replaces (fun _ => true) roomsC8 [9, 9, 9, 9, 9, 9] true 1 2 5 roomC8
     (by decide) (by decide) rfl (by decide) (by decide)⟩

/-- C9: on a live room, `update_client` with a public IPv4 address and then a
private IPv6 address for the same slot leaves that slot's FullContact with
both fields populated; the slot's other two address fields, its pending
handle, the whole peer slot, and every other room are unchanged, and neither
call performs a delivery (so no match is triggered). -/
theorem update_client_accumulates (rooms : Rooms) (rid : RoomId) (isc : Bool)
    (a4 : SocketAddrV4) (a6 : SocketAddrV6) (room : Room)
    (hlook : lookupRoom rooms rid = some room) :
    ∃ rooms1 rooms2,
      update_client rooms rid isc (SocketAddr.V4 a4) true =
        (rooms1, Except.ok (), []) ∧
      update_client rooms1 rid isc (SocketAddr.V6 a6) false =
        (rooms2, Except.ok (), []) ∧
      ∃ room2, lookupRoom rooms2 rid = some room2 ∧
        (room2.slot isc).contact.public.v4 = some a4 ∧
        (room2.slot isc).contact.private_.v6 = some a6 ∧
        (room2.slot isc).contact.public.v6 = (room.slot isc).contact.public.v6 ∧
        (room2.slot isc).contact.private_.v4 = (room.slot isc).contact.private_.v4 ∧
        (room2.slot isc).waiting = (room.slot isc).waiting ∧
        room2.slot (!isc) = room.slot (!isc) ∧
        (∀ rid', rid' ≠ rid → lookupRoom rooms2 rid' = lookupRoom rooms rid') := by
  cases isc with
  | true =>
    refine ⟨setKey rooms rid
        ⟨room.c0, ⟨⟨room.c1.contact.private_,
          ⟨room.c1.contact.public.v6, some a4⟩⟩, room.c1.waiting⟩⟩,
      setKey (setKey rooms rid
        ⟨room.c0, ⟨⟨room.c1.contact.private_,
          ⟨room.c1.contact.public.v6, some a4⟩⟩, room.c1.waiting⟩⟩) rid
        ⟨room.c0, ⟨⟨⟨some a6, room.c1.contact.private_.v4⟩,
          ⟨room.c1.contact.public.v6, some a4⟩⟩, room.c1.waiting⟩⟩, ?_, ?_,
      ⟨room.c0, ⟨⟨⟨some a6, room.c1.contact.private_.v4⟩,
        ⟨room.c1.contact.public.v6, some a4⟩⟩, room.c1.waiting⟩⟩,
      lookup_setKey_self _ _ _, rfl, rfl, rfl, rfl, rfl, rfl, ?_⟩
    · simp [update_client, hlook, Room.slot, Room.setSlot]
    · simp [update_client, lookup_setKey_self, Room.slot, Room.setSlot]
    · intro rid' h
      rw [lookup_setKey_other _ _ _ _ h, lookup_setKey_other _ _ _ _ h]
  | false =>
    refine ⟨setKey rooms rid
        ⟨⟨⟨room.c0.contact.private_,
          ⟨room.c0.contact.public.v6, some a4⟩⟩, room.c0.waiting⟩, room.c1⟩,
      setKey (setKey rooms rid
        ⟨⟨⟨room.c0.contact.private_,
          ⟨room.c0.contact.public.v6, some a4⟩⟩, room.c0.waiting⟩, room.c1⟩) rid
        ⟨⟨⟨⟨some a6, room.c0.contact.private_.v4⟩,
          ⟨room.c0.contact.public.v6, some a4⟩⟩, room.c0.waiting⟩, room.c1⟩, ?_, ?_,
      ⟨⟨⟨⟨some a6, room.c0.contact.private_.v4⟩,
        ⟨room.c0.contact.public.v6, some a4⟩⟩, room.c0.waiting⟩, room.c1⟩,
      lookup_setKey_self _ _ _, rfl, rfl, rfl, rfl, rfl, rfl, ?_⟩
    · simp [update_client, hlook, Room.slot, Room.setSlot]
    · simp [update_client, lookup_setKey_self, Room.slot, Room.setSlot]
    · intro rid' h
      rw [lookup_setKey_other _ _ _ _ h, lookup_setKey_other _ _ _ _ h]

/-- Witness for C9: updating the joiner of room `[9,...]` with public IPv4
address 77 then private IPv6 address 88 in a registry that also holds a
second room. -/
theorem update_client_accumulates_witness :
    lookupRoom roomsC9 [9, 9, 9, 9, 9, 9] = some roomC8 ∧
    ∃ rooms1 rooms2,
      update_client roomsC9 [9, 9, 9, 9, 9, 9] false (SocketAddr.V4 77) true =
        (rooms1, Except.ok (), []) ∧
      update_client rooms1 [9, 9, 9, 9, 9, 9] false (SocketAddr.V6 88) false =
        (rooms2, Except.ok (), []) ∧
      ∃ room2, lookupRoom rooms2 [9, 9, 9, 9, 9, 9] = some room2 ∧
        (room2.slot false).contact.public.v4 = some 77 ∧
        (room2.slot false).contact.private_.v6 = some 88 ∧
        (room2.slot false).contact.public.v6 = (roomC8.slot false).contact.public.v6 ∧
        (room2.slot false).contact.private_.v4 = (roomC8.slot false).contact.private_.v4 ∧
        (room2.slot false).waiting = (roomC8.slot false).waiting ∧
        room2.slot (!false) = roomC8.slot (!false) ∧
        (∀ rid', rid' ≠ [9, 9, 9, 9, 9, 9] →
          lookupRoom rooms2 rid' = lookupRoom roomsC9 rid') :=
  ⟨by decide,
   update_client_accumulates roomsC9 [9, 9, 9, 9, 9, 9] false 77 88 roomC8 (by decide)⟩

/-- C2 (refuted, code bug): the round trip `decrypt(encrypt(p)) = p` cannot
hold for any plaintext because the encrypted writer never completes a write:
already on the 1-byte plaintext `[97]` with a sink that accepts everything
in one shot, `Writer::poll_write` seals the chunk, writes it, and then
executes the trailing `todo!()` — a panic — instead of returning
`Ready(Ok(n))`, so no plaintext is ever accepted into the stream. -/
theorem poll_write_panics_before_roundtrip :
    Writer.poll_write encFnModel (Writer.new (List.replicate 12 9))
      [SinkEv.accept 100] [97] =
      (WOutcome.panicW ⟨1, [], List.replicate 12 9⟩, [],
       be32 21 ++ ([97] ++ List.replicate 16 0)) := by decide

/-- C3 (refuted, code bug): on a call that sealed a chunk and queued its
unwritten suffix (here the suffix is empty because the sink took all 23
bytes), `Writer::poll_write` does not complete by returning `Ready` with the
number of accepted plaintext bytes: it reaches `todo!()` and panics, the
exact writer-completion defect flagged in the design notes. -/
theorem poll_write_never_signals_completion :
    Writer.poll_write encFnModel (Writer.new (List.replicate 12 3))
      [SinkEv.accept 50] [1, 2, 3] =
      (WOutcome.panicW ⟨1, [], List.replicate 12 3⟩, [],
       be32 23 ++ ([1, 2, 3] ++ List.replicate 16 0)) := by decide

/-- C4 (refuted, code bug): the writer computes the header as
`encryption_space.len() as u32 + 4`, so the 4-byte big-endian value counts
the header itself in addition to the AEAD output.  For the empty plaintext
the AEAD output is 16 bytes, the bytes placed on the wire are
`be32 20 ++ tag`, the header decodes to 20 ≠ 16, and `peek_cipher_chunk` —
which takes bytes `4 .. 4+len` — cannot parse the fully arrived frame. -/
theorem chunk_header_counts_itself :
    (Writer.poll_write encFnModel (Writer.new (List.replicate 12 0))
      [SinkEv.accept 100] []).2.2 = be32 20 ++ List.replicate 16 0 ∧
    u32_from_be 0 0 0 20 = 20 ∧
    (List.replicate 16 0 : List Nat).length = 16 ∧
    peek_cipher_chunk ⟨40, be32 20 ++ List.replicate 16 0, 0⟩ = none := by decide

/-- C5 (refuted, code bug): `Writer::new` draws a random 12-byte nonce and
initializes the encryptor with it, but arranges nothing for sending it: the
pending ciphertext queue starts empty and the first bytes the sink receives
are the first chunk's length header, not the nonce (here the nonce is all
255s while the wire starts `0,0,0,20,...`), so a peer reader consuming the
stream head gets header bytes instead of the encryptor's nonce. -/
theorem session_nonce_never_sent :
    (Writer.new (List.replicate 12 255)).ciphertext = [] ∧
    (Writer.poll_write encFnModel (Writer.new (List.replicate 12 255))
      [SinkEv.accept 100] []).2.2.take 8 ≠ (List.replicate 12 255).take 8 := by decide

/-- C7 (refuted, code bug): with `MAX_CHUNK_SIZE` modelled as 8, a source
that delivers 16 bytes announcing a 10-byte chunk (well-formed length, but
the chunk exceeds the cleartext buffer) and never ends, `poll_read` with an
8-byte caller buffer completes Ready with zero bytes placed — the spurious
EOF signal — while the ciphertext buffer still holds all 16 unread bytes,
no error is reported, and the source was never at end of stream. -/
theorem poll_read_zero_bytes_without_eof :
    (EncryptedReader.poll_read (fun _ _ => none) erInit scriptC7 8).kind =
      PKind.readyP ∧
    (EncryptedReader.poll_read (fun _ _ => none) erInit scriptC7 8).out = [] ∧
    (EncryptedReader.poll_read (fun _ _ => none) erInit scriptC7 8).st.ciphertext.data =
      [0, 0, 0, 10] ++ List.replicate 12 7 ∧
    REvent.chunk [] ∉ scriptC7 := by decide

/-- C10 (refuted, code bug): `Reader::new` never returns normally on a
32-byte shared secret: `shared_secret[0..12]` is a 12-byte slice that cannot
convert into the 32-byte ChaCha20-Poly1305 key, and `shared_secret[12..44]`
is out of bounds for a 32-byte array, so the constructor panics for every
input instead of producing a decryptor. -/
theorem creader_new_panics (s : List Nat) (h : s.length = 32) :
    CReader.new s = none := by
  simp [CReader.new, sliceRange, h, Option.bind]

/-- Witness for C10 at the all-zero 32-byte shared secret. -/
theorem creader_new_panics_witness :
    (List.replicate 32 0 : List Nat).length = 32 ∧
    CReader.new (List.replicate 32 0) = none :=
  ⟨by decide, creader_new_panics (List.replicate 32 0) (by decide)⟩

end Gday
